import Mathlib

/-!
Verification of the self-play game driver of Fat-Fritz-1.1
(src/selfplay/game.cc), as a shallow embedding in Lean 4.

The embedding models:
- the resignation check in the ply loop of SelfPlayGame::Play
  (game.cc lines 240-278),
- the minimum-visit retry loop (lines 281-313) and the subsequent
  move determination and commit (lines 315-332),
- the book-move resolver ply_to_lc0_move (lines 38-113),
- SelfPlayLimits::MakeSearchStopper (lines 393-405),
- SelfPlayGame::WriteTrainingData (lines 379-391),
- the game-wide chess960 flag (lines 148-152) and the places
  conditioned on it (lines 210-214, 347).

Floating-point values from the search (best_eval) are modelled as
rationals; the checks involved are order comparisons and affine
combinations, whose branch structure the rationals mirror faithfully.
-/

set_option autoImplicit false

namespace Lczero

/-- Game results, as in lc0's `GameResult` enum. -/
inductive GameResult where
  | UNDECIDED
  | WHITE_WON
  | BLACK_WON
  | DRAW
deriving DecidableEq, Repr

/-- A board square, `lczero::BoardSquare` (row and column, each 0..7). -/
structure BoardSquare where
  row : Nat
  col : Nat
deriving DecidableEq, Repr

/-- Promotion component of an lc0 move (`Move::Promotion`). -/
inductive Promotion where
  | None
  | Queen
  | Rook
  | Bishop
  | Knight
deriving DecidableEq, Repr

/-- An lc0 move: from square, to square, promotion. -/
structure Move where
  fromSq : BoardSquare
  toSq : BoardSquare
  promo : Promotion := Promotion.None
deriving DecidableEq, Repr

/-- Mirroring of a `BoardSquare` (row flipped), as in lc0's coordinate flip. -/
def BoardSquare.mirror (s : BoardSquare) : BoardSquare :=
  ⟨7 - s.row, s.col⟩

/-- Move mirroring, `Move::Mirror()`: mirrors the rows of both endpoints. -/
def Move.mirror (m : Move) : Move :=
  { m with fromSq := m.fromSq.mirror, toSq := m.toSq.mirror }

/-! ### Resignation check (game.cc lines 240-278) -/

/-- The per-side options consulted by the resignation branch. -/
structure ResignOptions where
  enable_resign : Bool
  resign_wdlstyle : Bool
  resign_percentage : ℚ
  resign_earliest_move : Int
deriving DecidableEq, Repr

/-- Line 244: `best_w = (best_eval.first + 1.0f - best_eval.second) / 2.0f`. -/
def bestW (q d : ℚ) : ℚ := (q + 1 - d) / 2

/-- Line 246: `best_l = best_w - best_eval.first`. -/
def bestL (q d : ℚ) : ℚ := bestW q d - q

/-- Line 241: `eval = (eval + 1) / 2`, the evaluation normalized to [0,1]. -/
def normEval (q : ℚ) : ℚ := (q + 1) / 2

/-- The resignation branch of the ply loop (lines 250-278). Returns
`some r` when the branch sets `game_result_ = r` and breaks out of the
loop, `none` when play continues. `q` and `d` are `best_eval.first` and
`best_eval.second`. -/
def resignCheck (opts : ResignOptions) (move_number : Int) (blacks_move : Bool)
    (q d : ℚ) : Option GameResult :=
  if opts.enable_resign = true ∧ opts.resign_earliest_move ≤ move_number then
    let resignpct := opts.resign_percentage / 100
    if opts.resign_wdlstyle = true then
      let threshold := 1 - resignpct
      if bestW q d > threshold then
        some (if blacks_move then GameResult.BLACK_WON else GameResult.WHITE_WON)
      else if bestL q d > threshold then
        some (if blacks_move then GameResult.WHITE_WON else GameResult.BLACK_WON)
      else if d > threshold then
        some GameResult.DRAW
      else none
    else
      if normEval q < resignpct then
        some (if blacks_move then GameResult.WHITE_WON else GameResult.BLACK_WON)
      else none
  else none

/-! ### Minimum-visit retry loop (game.cc lines 280-313) and move
determination / commit (lines 315-332) -/

/-- The state the retry loop reads on each iteration. `edges` pairs each
edge's move, as returned by `edge.GetMove(tree_[idx]->IsBlackToMove())`,
with its visit count `edge.GetN()`. `historyNonTerminalAfter m` is
`history_copy.ComputeGameResult() == GameResult::UNDECIDED` after
appending `m` to a copy of the position history. `priorMoves` is
`GetMoves()`. `abortFlag` is the value of the `abort_` member while the
loop runs; the loop body (lines 281-313) contains no read of `abort_`. -/
structure RetryEnv where
  edges : List (Move × Nat)
  minimum_allowed_visits : Nat
  blackToMove : Bool
  historyNonTerminalAfter : Move → Bool
  priorMoves : List Move
  abortFlag : Bool

/-- Value of `max_n` after the edge scan (lines 283-292): running maximum of
`edge.GetN()`, starting from 0. -/
def maxN (edges : List (Move × Nat)) : Nat :=
  edges.foldl (fun acc e => max acc e.2) 0

/-- Value of `cur_n` after the edge scan: the visit count of the edge whose move
equals the engine's reported best move, 0 if no edge matches. -/
def curN (edges : List (Move × Nat)) (m : Move) : Nat :=
  edges.foldl (fun acc e => if e.1 = m then e.2 else acc) 0

/-- The acceptance test of lines 295-298: accept when `cur_n == max_n`
or `cur_n >=` the minimum-allowed-visits option. -/
def acceptMove (env : RetryEnv) (m : Move) : Bool :=
  curN env.edges m = maxN env.edges ∨
    env.minimum_allowed_visits ≤ curN env.edges m

/-- The retry loop (lines 281-313). `responses` is the stream of values
`search_->GetBestMove().first` returns on successive queries (one per
iteration; `ResetBestMove` makes the next query recompute). Returns the
accepted move together with the list of discarded-move callback
invocations (each the argument passed to `discarded_callback`), or
`none` when the modelled response stream is exhausted before a move is
accepted. -/
def retryLoop (env : RetryEnv) : List Move → Option (Move × List (List Move))
  | [] => none
  | move :: rest =>
    if acceptMove env move then
      some (move, [])
    else
      let move_for_history := if env.blackToMove then move.mirror else move
      let calls :=
        if env.historyNonTerminalAfter move_for_history then
          [env.priorMoves ++ [move]]
        else []
      match retryLoop env rest with
      | none => none
      | some (m, cs) => some (m, calls ++ cs)

/-- Outcome of the post-search part of one ply-loop iteration. -/
inductive PlyOutcome where
  /-- The member `game_result_` was set and the loop broke without committing a move. -/
  | stop (r : GameResult)
  /-- A move was committed to the trees (`MakeMove`, lines 330-331),
  after the listed discarded-move callback invocations. -/
  | commit (m : Move) (callbacks : List (List Move))
  /-- The modelled response stream was exhausted inside the retry loop. -/
  | noResponse
deriving DecidableEq, Repr

/-- Move determination and commit (lines 280-332): run the retry loop,
then commit the book move when `inBook`, else the accepted search move.
The `abort_` flag is not consulted anywhere on this path. -/
def moveSelection (env : RetryEnv) (responses : List Move)
    (bookMove : Option Move) : PlyOutcome :=
  match retryLoop env responses with
  | none => PlyOutcome.noResponse
  | some (m, cs) =>
    PlyOutcome.commit (match bookMove with | some b => b | none => m) cs

/-- The post-search body of one iteration of the ply loop (lines
240-332): resignation check first; when it sets a result the loop breaks
with no move committed, otherwise the minimum-visit retry loop chooses
and commits a move. -/
def plyStep (opts : ResignOptions) (move_number : Int) (blacks_move : Bool)
    (q d : ℚ) (env : RetryEnv) (responses : List Move)
    (bookMove : Option Move) : PlyOutcome :=
  match resignCheck opts move_number blacks_move q d with
  | some r => PlyOutcome.stop r
  | none => moveSelection env responses bookMove

/-! ### Book-move resolver `ply_to_lc0_move` (game.cc lines 38-113) -/

/-- PGN piece kinds (`pgn::Piece`). -/
inductive PgnPiece where
  | Knight
  | Bishop
  | Rook
  | Queen
  | King
  | Pawn
deriving DecidableEq, Repr

/-- A `pgn::Ply` as consumed by `ply_to_lc0_move`: castle flags, target
square, moved-piece kind, optional source file/rank (negative when
unspecified, as `pgn::Square` uses), promotion letter, and the original
text `ply.str()`. -/
structure Ply where
  shortCastle : Bool
  longCastle : Bool
  toRow : Nat
  toCol : Nat
  piece : PgnPiece
  fromColIndex : Int
  fromRowIndex : Int
  hasPromotion : Bool
  promotedLetter : Char
  str : String
deriving DecidableEq, Repr

/-- The board interface `ply_to_lc0_move` uses: the legal-move list and
the per-square piece bitboard tests of lines 49-54 (`our_knights`,
`bishops`, `rooks`, `queens`, `our_king`, `pawns`). -/
structure ChessBoard where
  legalMoves : List Move
  knights : BoardSquare → Bool
  bishops : BoardSquare → Bool
  rooks : BoardSquare → Bool
  queens : BoardSquare → Bool
  king : BoardSquare → Bool
  pawns : BoardSquare → Bool

/-- The piece filter of lines 63-68: a candidate survives exactly when
the bitboard for the ply's claimed piece kind contains the candidate's
(unmirrored) source square. -/
def pieceMatches (board : ChessBoard) (p : PgnPiece) (sq : BoardSquare) : Bool :=
  match p with
  | PgnPiece.Knight => board.knights sq
  | PgnPiece.Bishop => board.bishops sq
  | PgnPiece.Rook => board.rooks sq
  | PgnPiece.Queen => board.queens sq
  | PgnPiece.King => board.king sq
  | PgnPiece.Pawn => board.pawns sq

/-- The promotion switch of lines 83-97. Returns the move after the
switch and whether the `assert(false)` in the `default` branch was
reached. `case 'N'` has no `break`, so it sets the Knight promotion and
then falls through into `default`. -/
def applyPromotion (letter : Char) (m : Move) : Move × Bool :=
  if letter = 'Q' then ({ m with promo := Promotion.Queen }, false)
  else if letter = 'R' then ({ m with promo := Promotion.Rook }, false)
  else if letter = 'B' then ({ m with promo := Promotion.Bishop }, false)
  else if letter = 'N' then ({ m with promo := Promotion.Knight }, true)
  else (m, true)

/-- The loop over `board.GenerateLegalMoves()` (lines 48-109). For each
candidate: record the piece bitboard tests at the unmirrored source
square, mirror the candidate when `mirror` is set, match the destination
square, apply the piece filter, the optional source file and rank
filters, the promotion switch, and return the (mirrored) candidate. The
second component records whether the promotion switch reached its
`assert(false)`. -/
def resolveFromList (board : ChessBoard) (ply : Ply) (mirror : Bool) :
    List Move → Option (Move × Bool)
  | [] => none
  | lm :: rest =>
    let pieceOk := pieceMatches board ply.piece lm.fromSq
    let m := if mirror then lm.mirror else lm
    if m.toSq.row = ply.toRow ∧ m.toSq.col = ply.toCol then
      if pieceOk = false then
        resolveFromList board ply mirror rest
      else if 0 ≤ ply.fromColIndex ∧ (m.fromSq.col : Int) ≠ ply.fromColIndex then
        resolveFromList board ply mirror rest
      else if 0 ≤ ply.fromRowIndex ∧ (m.fromSq.row : Int) ≠ ply.fromRowIndex then
        resolveFromList board ply mirror rest
      else if ply.hasPromotion then
        some (applyPromotion ply.promotedLetter m)
      else
        some (m, false)
    else
      resolveFromList board ply mirror rest

/-- The resolver `ply_to_lc0_move` (lines 38-113). Castling short-circuits to a move
from square (backRank, 4) to the rook's file; otherwise the legal-move
scan runs, and when it finds nothing the function throws
`Exception("Didn't understood move: " + ply.str())`, modelled as
`Except.error`. -/
def ply_to_lc0_move (ply : Ply) (board : ChessBoard) (mirror : Bool) :
    Except String Move :=
  if ply.shortCastle = true ∨ ply.longCastle = true then
    let file_to : Nat := if ply.shortCastle then 7 else 0
    let rowIndex : Nat := if mirror then 7 else 0
    Except.ok { fromSq := ⟨rowIndex, 4⟩, toSq := ⟨rowIndex, file_to⟩ }
  else
    match resolveFromList board ply mirror board.legalMoves with
    | some (m, _) => Except.ok m
    | none => Except.error ("Didn't understood move: " ++ ply.str)

/-! ### `SelfPlayLimits::MakeSearchStopper` (game.cc lines 393-405) -/

/-- The limits record `SelfPlayLimits`: each field unset when negative. -/
structure SelfPlayLimits where
  visits : Int
  playouts : Int
  movetime : Int
deriving DecidableEq, Repr

/-- The sub-stoppers `MakeSearchStopper` can add. -/
inductive SearchStopper where
  | visitsStopper (n : Int)
  | playoutsStopper (n : Int)
  | timeLimitStopper (t : Int)
deriving DecidableEq, Repr

/-- The factory `SelfPlayLimits::MakeSearchStopper` (lines 393-405): a
`ChainedSearchStopper` holding one sub-stopper per non-negative field,
added in the order visits, playouts, movetime. The chained stopper is
modelled by its list of sub-stoppers. -/
def SelfPlayLimits.MakeSearchStopper (l : SelfPlayLimits) : List SearchStopper :=
  (if 0 ≤ l.visits then [SearchStopper.visitsStopper l.visits] else []) ++
  (if 0 ≤ l.playouts then [SearchStopper.playoutsStopper l.playouts] else []) ++
  (if 0 ≤ l.movetime then [SearchStopper.timeLimitStopper l.movetime] else [])

/-- Modelled from the spec: `ChainedSearchStopper::ShouldStop` lives in
mcts/stoppers/stoppers.cc, which is not part of this repository's
sources; per the spec the composite "signals as soon as any configured
sub-stopper signals". `signals s` abstracts whether sub-stopper `s`,
asked on the current search statistics, signals. -/
def chainedShouldStop (stoppers : List SearchStopper)
    (signals : SearchStopper → Bool) : Bool :=
  stoppers.any signals

/-! ### `SelfPlayGame::WriteTrainingData` (game.cc lines 379-391) -/

/-- The part of a V4 training record `WriteTrainingData` touches:
the side-to-move flag (true = black to move) and the outcome label. -/
structure TrainingRecord where
  side_to_move : Bool
  result : Int
deriving DecidableEq, Repr

/-- The per-chunk patch of lines 381-388. -/
def patchResult (game_result : GameResult) (chunk : TrainingRecord) :
    TrainingRecord :=
  if game_result = GameResult.WHITE_WON then
    { chunk with result := if chunk.side_to_move then -1 else 1 }
  else if game_result = GameResult.BLACK_WON then
    { chunk with result := if chunk.side_to_move then 1 else -1 }
  else
    { chunk with result := 0 }

/-- The export `WriteTrainingData` (lines 379-391): every stored chunk is patched
and forwarded to the writer in storage order; the returned list is the
sequence of chunks passed to `writer->WriteChunk`. -/
def WriteTrainingData (game_result : GameResult)
    (training_data : List TrainingRecord) : List TrainingRecord :=
  training_data.map (patchResult game_result)

/-! ### The game-wide chess960 flag (game.cc lines 148-152, 210-214, 347) -/

/-- The constructor initializer (lines 151-152): one game-wide flag, the
disjunction of the two sides' UCI_Chess960 options. -/
def gameChess960 (player1_chess960 player2_chess960 : Bool) : Bool :=
  player1_chess960 || player2_chess960

/-- The responder built in Play's critical section: the side's callback
responder, wrapped in a `Chess960Transformer` (the legacy-castling
adapter) when `!chess960_` (lines 206-214). `idx` is the side index. -/
inductive Responder where
  | callbackResponder (idx : Nat)
  | chess960Transformer (inner : Responder)
deriving DecidableEq, Repr

/-- Responder construction for side `idx` (lines 206-214). -/
def makeResponder (chess960_flag : Bool) (idx : Nat) : Responder :=
  let r := Responder.callbackResponder idx
  if chess960_flag = false then Responder.chess960Transformer r else r

/-- The per-move conversion inside `GetMoves` (line 347):
`if (!chess960_) move = pos.GetBoard().GetLegacyMove(move)`.
`legacyMoveAt` abstracts `pos.GetBoard().GetLegacyMove`. -/
def getMovesConvert (chess960_flag : Bool) (legacyMoveAt : Move → Move)
    (m : Move) : Move :=
  if chess960_flag = false then legacyMoveAt m else m

/-! ### Derived predicates and concrete instances used by the theorems -/

/-- The candidate as the scan sees it after line 56-58: mirrored when
`mirror` is set. -/
def viewedMove (mirror : Bool) (lm : Move) : Move :=
  if mirror then lm.mirror else lm

/-- The conjunction of the constraints a candidate `lm` of
`board.legalMoves` must pass in the scan of lines 48-109: destination
square of the (mirrored) candidate matches the ply's target, the piece
bitboard test for the claimed piece kind holds at the unmirrored source
square, and the optional source-file / source-rank constraints hold for
the (mirrored) source square. -/
def satisfiesConstraints (board : ChessBoard) (ply : Ply) (mirror : Bool)
    (lm : Move) : Prop :=
  (viewedMove mirror lm).toSq.row = ply.toRow ∧
  (viewedMove mirror lm).toSq.col = ply.toCol ∧
  pieceMatches board ply.piece lm.fromSq = true ∧
  (0 ≤ ply.fromColIndex → ((viewedMove mirror lm).fromSq.col : Int) = ply.fromColIndex) ∧
  (0 ≤ ply.fromRowIndex → ((viewedMove mirror lm).fromSq.row : Int) = ply.fromRowIndex)

instance (board : ChessBoard) (ply : Ply) (mirror : Bool) (lm : Move) :
    Decidable (satisfiesConstraints board ply mirror lm) := by
  unfold satisfiesConstraints; infer_instance

/-- The outcome label as the spec's words describe it: +1 if the
recorded side to move won, -1 if it lost, 0 otherwise (draw or
undecided). Written from the spec for comparison with `patchResult`;
`stm = true` means the record was taken with Black to move. -/
def specOutcomeLabel (gr : GameResult) (stm : Bool) : Int :=
  if (gr = GameResult.WHITE_WON ∧ stm = false) ∨
     (gr = GameResult.BLACK_WON ∧ stm = true) then 1
  else if (gr = GameResult.WHITE_WON ∧ stm = true) ∨
          (gr = GameResult.BLACK_WON ∧ stm = false) then -1
  else 0

/-- A concrete move used in the retry-loop instances. -/
def mvA : Move := ⟨⟨0, 0⟩, ⟨1, 0⟩, Promotion.None⟩

/-- A second concrete move used in the retry-loop instances. -/
def mvB : Move := ⟨⟨0, 1⟩, ⟨1, 1⟩, Promotion.None⟩

/-- A concrete retry-loop state with the abort flag already set: the
head has an edge for `mvA` with 10 visits and one for `mvB` with 3,
the minimum-allowed-visits option is 5, White to move, every
continuation non-terminal, no prior moves. -/
def retryEnvAborted : RetryEnv :=
  ⟨[(mvA, 10), (mvB, 3)], 5, false, fun _ => true, [], true⟩

/-- A concrete board for the resolver instances: the only legal move is
the white pawn push from (6,0) to (7,0) and the pawn bitboard holds the
source square. -/
def promoBoard : ChessBoard :=
  ⟨[⟨⟨6, 0⟩, ⟨7, 0⟩, Promotion.None⟩],
    fun _ => false, fun _ => false, fun _ => false, fun _ => false,
    fun _ => false, fun s => s.row == 6 && s.col == 0⟩

/-- A pawn ply to (7,0) promoting with letter 'N'. -/
def promoPlyKnight : Ply :=
  ⟨false, false, 7, 0, PgnPiece.Pawn, -1, -1, true, 'N', "a8=N"⟩

/-- A pawn ply to (5,5), which no legal move of `promoBoard` matches. -/
def unmatchablePly : Ply :=
  ⟨false, false, 5, 5, PgnPiece.Pawn, -1, -1, false, 'Q', "f6"⟩

/-- A short-castle ply. -/
def castlePlyShort : Ply :=
  ⟨true, false, 0, 6, PgnPiece.King, -1, -1, false, 'Q', "O-O"⟩

/-- A board whose back-rank king square is file 2, as the constructor's
per-game back-rank shuffle (game.cc lines 154-158) can produce: the king
bitboard holds (0,2) only, in particular not the standard home square
(0,4). -/
def kingOnFile2Board : ChessBoard :=
  ⟨[], fun _ => false, fun _ => false, fun _ => false, fun _ => false,
    fun s => s.row == 0 && s.col == 2, fun _ => false⟩

/-! ## Theorems -/

/-- C1: with resignation enabled, WDL-style resign configured, and the
move number at least the earliest-resign move, with threshold
`1 - resign_percentage/100`: if the mover's best win probability exceeds
the threshold the result is a win for the side to move; otherwise if the
best loss probability exceeds it the result is a win for the opponent;
otherwise if the best draw probability exceeds it the result is DRAW; in
each case the ply loop stops without committing a move, the first
exceeded condition (win, loss, draw in that order) deciding; when none
is exceeded the resignation branch sets no result. -/
theorem wdl_resign_spec (opts : ResignOptions) (move_number : Int)
    (blacks_move : Bool) (q d : ℚ) (env : RetryEnv) (responses : List Move)
    (bookMove : Option Move)
    (hen : opts.enable_resign = true)
    (hwdl : opts.resign_wdlstyle = true)
    (hmv : opts.resign_earliest_move ≤ move_number) :
    (bestW q d > 1 - opts.resign_percentage / 100 →
      plyStep opts move_number blacks_move q d env responses bookMove =
        PlyOutcome.stop
          (if blacks_move then GameResult.BLACK_WON else GameResult.WHITE_WON)) ∧
    (¬ bestW q d > 1 - opts.resign_percentage / 100 →
      bestL q d > 1 - opts.resign_percentage / 100 →
      plyStep opts move_number blacks_move q d env responses bookMove =
        PlyOutcome.stop
          (if blacks_move then GameResult.WHITE_WON else GameResult.BLACK_WON)) ∧
    (¬ bestW q d > 1 - opts.resign_percentage / 100 →
      ¬ bestL q d > 1 - opts.resign_percentage / 100 →
      d > 1 - opts.resign_percentage / 100 →
      plyStep opts move_number blacks_move q d env responses bookMove =
        PlyOutcome.stop GameResult.DRAW) ∧
    (¬ bestW q d > 1 - opts.resign_percentage / 100 →
      ¬ bestL q d > 1 - opts.resign_percentage / 100 →
      ¬ d > 1 - opts.resign_percentage / 100 →
      resignCheck opts move_number blacks_move q d = none) := by
  refine ⟨?_, ?_, ?_, ?_⟩
  · intro h1
    simp [plyStep, resignCheck, hen, hwdl, hmv, h1]
  · intro h1 h2
    simp [plyStep, resignCheck, hen, hwdl, hmv, h1, h2]
  · intro h1 h2 h3
    simp [plyStep, resignCheck, hen, hwdl, hmv, h1, h2, h3]
  · intro h1 h2 h3
    simp [resignCheck, hen, hwdl, hmv, h1, h2, h3]

/-- Witness for C1, the spec's own example: best_w = 0.97, best_d = 0.02,
best_l = 0.01, resign_percentage = 5 (threshold 0.95), White to move:
the win branch fires and the loop stops crediting the mover. -/
theorem wdl_resign_spec_witness :
    plyStep ⟨true, true, 5, 0⟩ 1 false (24/25) (1/50)
      ⟨[], 0, false, fun _ => false, [], false⟩ [] none =
      PlyOutcome.stop GameResult.WHITE_WON :=
  (wdl_resign_spec ⟨true, true, 5, 0⟩ 1 false (24/25) (1/50)
      ⟨[], 0, false, fun _ => false, [], false⟩ [] none rfl rfl
      (by decide)).1 (by norm_num [bestW])

/-- C4: with resignation enabled, simple (non-WDL) style, and the move
number at least the earliest-resign move, the evaluation is normalized
to [0,1] as (value+1)/2 and, when strictly below
resign_percentage/100, the result is a win for the side not to move and
the loop stops without committing a move; otherwise the branch sets no
result; and with resign_percentage = 0 the branch never triggers for any
evaluation (value ≥ -1). -/
theorem simple_resign_spec (opts : ResignOptions) (move_number : Int)
    (blacks_move : Bool) (q d : ℚ) (env : RetryEnv) (responses : List Move)
    (bookMove : Option Move)
    (hen : opts.enable_resign = true)
    (hwdl : opts.resign_wdlstyle = false)
    (hmv : opts.resign_earliest_move ≤ move_number) :
    (normEval q < opts.resign_percentage / 100 →
      plyStep opts move_number blacks_move q d env responses bookMove =
        PlyOutcome.stop
          (if blacks_move then GameResult.WHITE_WON else GameResult.BLACK_WON)) ∧
    (¬ normEval q < opts.resign_percentage / 100 →
      resignCheck opts move_number blacks_move q d = none) ∧
    (opts.resign_percentage = 0 → -1 ≤ q →
      resignCheck opts move_number blacks_move q d = none) := by
  refine ⟨?_, ?_, ?_⟩
  · intro hlt
    simp_all [plyStep, resignCheck]
  · intro hge
    simp_all [resignCheck]
  · intro hp hq
    have : ¬ normEval q < opts.resign_percentage / 100 := by
      rw [hp]
      simp only [zero_div, not_lt, normEval]
      linarith
    simp_all [resignCheck]

/-- Witness for C4, the spec's own example: normalized eval 0.10 (value
-0.8), resign_percentage 20, White to move: resignation triggers and
credits the non-mover (Black); and with percentage 0 the branch sets no
result at the same evaluation. -/
theorem simple_resign_spec_witness :
    (plyStep ⟨true, false, 20, 0⟩ 1 false (-4/5) 0
      ⟨[], 0, false, fun _ => false, [], false⟩ [] none =
      PlyOutcome.stop GameResult.BLACK_WON) ∧
    (resignCheck ⟨true, false, 0, 0⟩ 1 false (-4/5) 0 = none) :=
  ⟨(simple_resign_spec ⟨true, false, 20, 0⟩ 1 false (-4/5) 0
      ⟨[], 0, false, fun _ => false, [], false⟩ [] none rfl rfl
      (by decide)).1 (by norm_num [normEval]),
   (simple_resign_spec ⟨true, false, 0, 0⟩ 1 false (-4/5) 0
      ⟨[], 0, false, fun _ => false, [], false⟩ [] none rfl rfl
      (by decide)).2.2 rfl (by norm_num)⟩

/-- Helper: the Boolean acceptance test agrees with its propositional
reading. -/
theorem acceptMove_eq_true (env : RetryEnv) (m : Move) :
    acceptMove env m = true ↔
      (curN env.edges m = maxN env.edges ∨
        env.minimum_allowed_visits ≤ curN env.edges m) := by
  simp [acceptMove]

/-- C2: an iteration of the minimum-visit retry loop accepts the
engine's reported best move exactly when its visit count (`cur_n`)
equals the maximum visit count over all edges of the current head
(`max_n`), or is at least the minimum-allowed-visits option; otherwise,
when appending the candidate (mirrored when Black is to move) to a copy
of the position history yields a non-terminal position, the
discarded-move callback is invoked with the full move sequence including
the candidate, the best move is reset and the comparison is retried on
the engine's next response; when the position is terminal no callback
fires and the comparison is likewise retried. -/
theorem min_visit_retry_spec (env : RetryEnv) (move : Move)
    (rest : List Move) :
    ((curN env.edges move = maxN env.edges ∨
        env.minimum_allowed_visits ≤ curN env.edges move) →
      retryLoop env (move :: rest) = some (move, [])) ∧
    (¬ (curN env.edges move = maxN env.edges ∨
        env.minimum_allowed_visits ≤ curN env.edges move) →
      env.historyNonTerminalAfter
          (if env.blackToMove then move.mirror else move) = true →
      retryLoop env (move :: rest) =
        match retryLoop env rest with
        | none => none
        | some (m, cs) => some (m, (env.priorMoves ++ [move]) :: cs)) ∧
    (¬ (curN env.edges move = maxN env.edges ∨
        env.minimum_allowed_visits ≤ curN env.edges move) →
      env.historyNonTerminalAfter
          (if env.blackToMove then move.mirror else move) = false →
      retryLoop env (move :: rest) = retryLoop env rest) := by
  refine ⟨?_, ?_, ?_⟩
  · intro h
    have hb : acceptMove env move = true := (acceptMove_eq_true env move).mpr h
    simp [retryLoop, hb]
  · intro h hnt
    have hb : acceptMove env move = false := by
      cases ht : acceptMove env move with
      | false => rfl
      | true => exact absurd ((acceptMove_eq_true env move).mp ht) h
    cases hr : retryLoop env rest with
    | none => simp [retryLoop, hb, hnt, hr]
    | some p => cases p with
      | mk m cs => simp [retryLoop, hb, hnt, hr]
  · intro h hnt
    have hb : acceptMove env move = false := by
      cases ht : acceptMove env move with
      | false => rfl
      | true => exact absurd ((acceptMove_eq_true env move).mp ht) h
    cases hr : retryLoop env rest with
    | none => simp [retryLoop, hb, hnt, hr]
    | some p => cases p with
      | mk m cs => simp [retryLoop, hb, hnt, hr]

/-- Witness for C2: with edges (mvA, 10 visits) and (mvB, 3 visits) and
minimum-allowed-visits 5, the engine first reports mvB: 3 is neither the
maximum (10) nor ≥ 5, the continuation is non-terminal, so the
discarded-move callback fires with [mvB] and the loop retries; the next
response mvA has the maximum visit count and is accepted. -/
theorem min_visit_retry_spec_witness :
    retryLoop (⟨[(mvA, 10), (mvB, 3)], 5, false, fun _ => true, [], false⟩ :
        RetryEnv) [mvB, mvA] = some (mvA, [[mvB]]) := by
  have hstep :=
    (min_visit_retry_spec
      (⟨[(mvA, 10), (mvB, 3)], 5, false, fun _ => true, [], false⟩ :
        RetryEnv) mvB [mvA]).2.1 (by decide) rfl
  have haccept :=
    (min_visit_retry_spec
      (⟨[(mvA, 10), (mvB, 3)], 5, false, fun _ => true, [], false⟩ :
        RetryEnv) mvA []).1 (by decide)
  rw [hstep, haccept]
  rfl

/-- C3 counterexample: `retryEnvAborted` has the abort flag set before
the retry loop runs, yet the loop still performs a retry iteration (the
discarded-move callback fires for the rejected mvB) and then accepts
mvA, which is committed for the in-flight ply: the loop body of lines
281-313 never reads `abort_`. -/
theorem retry_ignores_abort_counterexample :
    retryEnvAborted.abortFlag = true ∧
    retryLoop retryEnvAborted [mvB, mvA] = some (mvA, [[mvB]]) ∧
    moveSelection retryEnvAborted [mvB, mvA] none =
      PlyOutcome.commit mvA [[mvB]] := by
  refine ⟨rfl, ?_, ?_⟩ <;> decide

/-- C3 amended: the minimum-visit retry loop does not re-check the abort
flag: its iterations, callback invocations and accepted move, and the
move committed for the in-flight ply, are identical for any value of the
flag. The abort flag is observed only at the top of the ply loop, in the
critical section before the search is built, and right after the search
returns - not inside the retry loop. -/
theorem retry_loop_abort_independent (env : RetryEnv) (a b : Bool)
    (responses : List Move) (bookMove : Option Move) :
    retryLoop { env with abortFlag := a } responses =
      retryLoop { env with abortFlag := b } responses ∧
    moveSelection { env with abortFlag := a } responses bookMove =
      moveSelection { env with abortFlag := b } responses bookMove := by
  have hloop : ∀ rs : List Move,
      retryLoop { env with abortFlag := a } rs =
        retryLoop { env with abortFlag := b } rs := by
    intro rs
    induction rs with
    | nil => rfl
    | cons m rest ih => simp [retryLoop, acceptMove, ih]
  exact ⟨hloop responses, by simp [moveSelection, hloop responses]⟩

/-- C5: the stopper factory returns a composite with exactly one
sub-stopper per field that is set (non-negative; unset is the negative
sentinel), each carrying its field's value; the composite signals
exactly when one of its sub-stoppers signals; with all three fields
unset the composite is empty and an empty composite never signals. -/
theorem make_search_stopper_spec (l : SelfPlayLimits)
    (signals : SearchStopper → Bool) :
    (l.MakeSearchStopper.length =
      (if 0 ≤ l.visits then 1 else 0) + (if 0 ≤ l.playouts then 1 else 0) +
        (if 0 ≤ l.movetime then 1 else 0)) ∧
    (∀ n, SearchStopper.visitsStopper n ∈ l.MakeSearchStopper ↔
      0 ≤ l.visits ∧ n = l.visits) ∧
    (∀ n, SearchStopper.playoutsStopper n ∈ l.MakeSearchStopper ↔
      0 ≤ l.playouts ∧ n = l.playouts) ∧
    (∀ t, SearchStopper.timeLimitStopper t ∈ l.MakeSearchStopper ↔
      0 ≤ l.movetime ∧ t = l.movetime) ∧
    (chainedShouldStop l.MakeSearchStopper signals = true ↔
      ∃ s ∈ l.MakeSearchStopper, signals s = true) ∧
    (l.visits < 0 → l.playouts < 0 → l.movetime < 0 →
      l.MakeSearchStopper = []) ∧
    (∀ f, chainedShouldStop [] f = false) := by
  refine ⟨?_, ?_, ?_, ?_, ?_, ?_, ?_⟩
  · by_cases h1 : 0 ≤ l.visits <;> by_cases h2 : 0 ≤ l.playouts <;>
      by_cases h3 : 0 ≤ l.movetime <;>
      simp [SelfPlayLimits.MakeSearchStopper, h1, h2, h3]
  · intro n
    by_cases h1 : 0 ≤ l.visits <;> by_cases h2 : 0 ≤ l.playouts <;>
      by_cases h3 : 0 ≤ l.movetime <;>
      simp [SelfPlayLimits.MakeSearchStopper, h1, h2, h3, eq_comm]
  · intro n
    by_cases h1 : 0 ≤ l.visits <;> by_cases h2 : 0 ≤ l.playouts <;>
      by_cases h3 : 0 ≤ l.movetime <;>
      simp [SelfPlayLimits.MakeSearchStopper, h1, h2, h3, eq_comm]
  · intro t
    by_cases h1 : 0 ≤ l.visits <;> by_cases h2 : 0 ≤ l.playouts <;>
      by_cases h3 : 0 ≤ l.movetime <;>
      simp [SelfPlayLimits.MakeSearchStopper, h1, h2, h3, eq_comm]
  · simp [chainedShouldStop, List.any_eq_true]
  · intro h1 h2 h3
    simp [SelfPlayLimits.MakeSearchStopper, not_le.mpr h1, not_le.mpr h2,
      not_le.mpr h3]
  · intro f
    simp [chainedShouldStop]

/-- Witness for C5: with all three limits unset (all -1) the composite
is empty; and the factory applied at the spec's example (visits = 100,
playouts unset, movetime = 500) contains the visits sub-stopper. -/
theorem make_search_stopper_spec_witness :
    (SelfPlayLimits.MakeSearchStopper ⟨-1, -1, -1⟩ = []) ∧
    (SearchStopper.visitsStopper 100 ∈
      SelfPlayLimits.MakeSearchStopper ⟨100, -1, 500⟩) :=
  ⟨(make_search_stopper_spec ⟨-1, -1, -1⟩ (fun _ => false)).2.2.2.2.2.1
      (by decide) (by decide) (by decide),
   ((make_search_stopper_spec ⟨100, -1, 500⟩ (fun _ => false)).2.1 100).mpr
      ⟨by decide, rfl⟩⟩

/-- C9: WriteTrainingData forwards every stored record, in order, with
its outcome label patched to the spec's function of the final result and
the record's side-to-move flag (+1 when the recorded side won, -1 when
it lost, 0 on draw or undecided), every written label lying in
{-1, 0, 1}. -/
theorem write_training_data_spec (gr : GameResult)
    (data : List TrainingRecord) :
    WriteTrainingData gr data =
      data.map (fun c => { c with result := specOutcomeLabel gr c.side_to_move }) ∧
    ∀ c ∈ WriteTrainingData gr data,
      c.result = -1 ∨ c.result = 0 ∨ c.result = 1 := by
  have hpatch : ∀ c : TrainingRecord,
      patchResult gr c = { c with result := specOutcomeLabel gr c.side_to_move } := by
    intro c
    cases gr <;> cases hs : c.side_to_move <;>
      simp [patchResult, specOutcomeLabel, hs]
  constructor
  · unfold WriteTrainingData
    exact List.map_congr_left fun c _ => hpatch c
  · intro c hc
    unfold WriteTrainingData at hc
    rcases List.mem_map.mp hc with ⟨a, _, ha⟩
    rw [← ha, hpatch a]
    cases gr <;> cases hs : a.side_to_move <;>
      simp [specOutcomeLabel, hs]

/-- Witness for C9: a two-record game (one snapshot with White to move,
one with Black to move) finalized as WHITE_WON is forwarded with labels
+1 and -1, both in {-1, 0, 1}. -/
theorem write_training_data_spec_witness :
    WriteTrainingData GameResult.WHITE_WON [⟨false, 17⟩, ⟨true, 17⟩] =
      [⟨false, 1⟩, ⟨true, -1⟩] ∧
    ((⟨false, 1⟩ : TrainingRecord).result = -1 ∨
      (⟨false, 1⟩ : TrainingRecord).result = 0 ∨
      (⟨false, 1⟩ : TrainingRecord).result = 1) :=
  ⟨((write_training_data_spec GameResult.WHITE_WON
        [⟨false, 17⟩, ⟨true, 17⟩]).1).trans (by decide),
   (write_training_data_spec GameResult.WHITE_WON
        [⟨false, 17⟩, ⟨true, 17⟩]).2 ⟨false, 1⟩ (by decide)⟩

/-- C10: the driver fixes one game-wide chess960 flag at construction as
the disjunction of the two sides' options; for every side index, the
Chess960Transformer (legacy castling) adapter wraps that side's
responder exactly when neither side has chess960 enabled, and in that
case GetMoves' per-move legacy conversion applies while otherwise the
move passes through unchanged. -/
theorem chess960_flag_spec (p1 p2 : Bool) (idx : Nat)
    (legacyMoveAt : Move → Move) (m : Move) :
    (gameChess960 p1 p2 = (p1 || p2)) ∧
    (makeResponder (gameChess960 p1 p2) idx =
        Responder.chess960Transformer (Responder.callbackResponder idx) ↔
      p1 = false ∧ p2 = false) ∧
    (p1 = false → p2 = false →
      getMovesConvert (gameChess960 p1 p2) legacyMoveAt m = legacyMoveAt m) ∧
    (p1 = true ∨ p2 = true →
      makeResponder (gameChess960 p1 p2) idx =
        Responder.callbackResponder idx ∧
      getMovesConvert (gameChess960 p1 p2) legacyMoveAt m = m) := by
  cases p1 <;> cases p2 <;>
    simp [gameChess960, makeResponder, getMovesConvert]

/-- Witness for C10: with side 1 alone having chess960 enabled, neither
side's responder is wrapped and GetMoves does not convert; with both
sides disabled, side 0's responder is wrapped and the conversion
applies. -/
theorem chess960_flag_spec_witness :
    (makeResponder (gameChess960 false true) 0 =
        Responder.callbackResponder 0 ∧
      getMovesConvert (gameChess960 false true) (fun _ => mvA) mvB = mvB) ∧
    getMovesConvert (gameChess960 false false) (fun _ => mvA) mvB = mvA :=
  ⟨(chess960_flag_spec false true 0 (fun _ => mvA) mvB).2.2.2 (Or.inr rfl),
   (chess960_flag_spec false false 0 (fun _ => mvA) mvB).2.2.1 rfl rfl⟩

/-- Helper: one step of the legal-move scan, phrased through the
constraint predicate: a cons either returns the (promotion-adjusted)
viewed candidate when it satisfies all constraints, or recurses. -/
theorem resolveFromList_cons (board : ChessBoard) (ply : Ply)
    (mirror : Bool) (lm : Move) (rest : List Move) :
    resolveFromList board ply mirror (lm :: rest) =
      if satisfiesConstraints board ply mirror lm then
        some (if ply.hasPromotion then
                applyPromotion ply.promotedLetter (viewedMove mirror lm)
              else (viewedMove mirror lm, false))
      else resolveFromList board ply mirror rest := by
  cases hpk : pieceMatches board ply.piece lm.fromSq with
  | false =>
    simp only [resolveFromList, satisfiesConstraints, viewedMove, hpk]
    split_ifs <;> simp_all
  | true =>
    simp only [resolveFromList, satisfiesConstraints, viewedMove, hpk]
    split_ifs <;> simp_all

/-- Helper: the scan yields `none` exactly when no candidate in the list
satisfies the constraints. -/
theorem resolveFromList_none_iff (board : ChessBoard) (ply : Ply)
    (mirror : Bool) (ms : List Move) :
    resolveFromList board ply mirror ms = none ↔
      ∀ lm ∈ ms, ¬ satisfiesConstraints board ply mirror lm := by
  induction ms with
  | nil => simp [resolveFromList]
  | cons lm rest ih =>
    rw [resolveFromList_cons]
    by_cases hs : satisfiesConstraints board ply mirror lm
    · simp [hs]
    · simp [hs, ih]

/-- Helper: a successful scan comes from a candidate in the list that
satisfies the constraints, returned (mirrored) with the promotion switch
applied when the ply promotes. -/
theorem resolveFromList_ok (board : ChessBoard) (ply : Ply)
    (mirror : Bool) (ms : List Move) (m : Move) (b : Bool)
    (h : resolveFromList board ply mirror ms = some (m, b)) :
    ∃ lm ∈ ms, satisfiesConstraints board ply mirror lm ∧
      (m, b) = (if ply.hasPromotion then
                  applyPromotion ply.promotedLetter (viewedMove mirror lm)
                else (viewedMove mirror lm, false)) := by
  induction ms with
  | nil => simp [resolveFromList] at h
  | cons lm rest ih =>
    rw [resolveFromList_cons] at h
    by_cases hs : satisfiesConstraints board ply mirror lm
    · rw [if_pos hs] at h
      exact ⟨lm, List.mem_cons_self _ _, hs, (Option.some_inj.mp h).symm⟩
    · rw [if_neg hs] at h
      obtain ⟨lm', hmem, h1, h2⟩ := ih h
      exact ⟨lm', List.mem_cons_of_mem _ hmem, h1, h2⟩

/-- Helper: the promotion switch never changes the move's squares. -/
theorem applyPromotion_squares (c : Char) (m : Move) :
    (applyPromotion c m).1.fromSq = m.fromSq ∧
      (applyPromotion c m).1.toSq = m.toSq := by
  unfold applyPromotion
  split_ifs <;> simp

/-- C6: for a non-castling ply, when no legal move of the board
satisfies all of its constraints (destination square, moved-piece kind
checked against the piece on the source square, optional source file and
rank), the resolver fails with the unrecognized-move error carrying the
original notation; and whenever it returns a move, that move comes from
a legal candidate satisfying every constraint and itself meets the
destination and source-file/rank constraints. -/
theorem unresolved_move_spec (board : ChessBoard) (ply : Ply)
    (mirror : Bool) (hsc : ply.shortCastle = false)
    (hlc : ply.longCastle = false) :
    ((∀ lm ∈ board.legalMoves, ¬ satisfiesConstraints board ply mirror lm) →
      ply_to_lc0_move ply board mirror =
        Except.error ("Didn't understood move: " ++ ply.str)) ∧
    (∀ m, ply_to_lc0_move ply board mirror = Except.ok m →
      ∃ lm ∈ board.legalMoves, satisfiesConstraints board ply mirror lm ∧
        m.fromSq = (viewedMove mirror lm).fromSq ∧
        m.toSq = (viewedMove mirror lm).toSq ∧
        m.toSq.row = ply.toRow ∧ m.toSq.col = ply.toCol ∧
        (0 ≤ ply.fromColIndex → (m.fromSq.col : Int) = ply.fromColIndex) ∧
        (0 ≤ ply.fromRowIndex → (m.fromSq.row : Int) = ply.fromRowIndex)) := by
  have hnc : ¬ (ply.shortCastle = true ∨ ply.longCastle = true) := by
    simp [hsc, hlc]
  constructor
  · intro hall
    have hnone := (resolveFromList_none_iff board ply mirror
      board.legalMoves).mpr hall
    simp [ply_to_lc0_move, hnc, hnone]
  · intro m hm
    rw [ply_to_lc0_move, if_neg hnc] at hm
    cases hr : resolveFromList board ply mirror board.legalMoves with
    | none => rw [hr] at hm; cases hm
    | some p =>
      obtain ⟨mm, b⟩ := p
      rw [hr] at hm
      have hmm : mm = m := by
        simpa using hm
      obtain ⟨lm, hmem, hsat, heq⟩ :=
        resolveFromList_ok board ply mirror board.legalMoves mm b hr
      have hsq : mm.fromSq = (viewedMove mirror lm).fromSq ∧
          mm.toSq = (viewedMove mirror lm).toSq := by
        by_cases hp : ply.hasPromotion = true
        · rw [if_pos hp] at heq
          have : mm = (applyPromotion ply.promotedLetter
              (viewedMove mirror lm)).1 := by
            have := congrArg Prod.fst heq
            simpa using this
          rw [this]
          exact applyPromotion_squares ply.promotedLetter (viewedMove mirror lm)
        · rw [if_neg hp] at heq
          have : mm = viewedMove mirror lm := by
            have := congrArg Prod.fst heq
            simpa using this
          simp [this]
      obtain ⟨hrow, hcol, hpc, hfc, hfr⟩ := hsat
      subst hmm
      refine ⟨lm, hmem, ⟨hrow, hcol, hpc, hfc, hfr⟩, hsq.1, hsq.2,
        ?_, ?_, ?_, ?_⟩
      · rw [hsq.2]; exact hrow
      · rw [hsq.2]; exact hcol
      · intro h0; rw [hsq.1]; exact hfc h0
      · intro h0; rw [hsq.1]; exact hfr h0

/-- Witness for C6: on `promoBoard` (whose only legal move goes to
(7,0)) the ply `unmatchablePly` targeting (5,5) matches nothing, and the
resolver fails with the unrecognized-move error carrying its text. -/
theorem unresolved_move_spec_witness :
    ply_to_lc0_move unmatchablePly promoBoard false =
      Except.error ("Didn't understood move: " ++ "f6") :=
  (unresolved_move_spec promoBoard unmatchablePly false rfl rfl).1 (by decide)

/-- C7 counterexample: on a board whose shuffled back rank put the king
on file 2 (so its home square on that board is (0,2)), a short-castle
ply still resolves to the move from (0,4): the from-square of the
returned move does not hold the king on that board, so the resolver does
not return the move from the king's home square on that board. -/
theorem castle_king_square_counterexample :
    ply_to_lc0_move castlePlyShort kingOnFile2Board false =
      Except.ok ⟨⟨0, 4⟩, ⟨0, 7⟩, Promotion.None⟩ ∧
    kingOnFile2Board.king ⟨0, 2⟩ = true ∧
    kingOnFile2Board.king ⟨0, 4⟩ = false :=
  ⟨rfl, rfl, rfl⟩

/-- C7 amended: for every board and castle-flagged ply, the resolver
returns - without consulting the board at all, in particular without
enumerating legal moves - the move from file 4 of the mover's back rank
(the standard king home square, which on the shuffled starting
arrangements need not hold the king) to the rook's file: 7 for short
castling, 0 for long castling. -/
theorem castle_resolution (ply : Ply) (board board2 : ChessBoard)
    (mirror : Bool) (h : ply.shortCastle = true ∨ ply.longCastle = true) :
    ply_to_lc0_move ply board mirror =
      Except.ok ⟨⟨if mirror then 7 else 0, 4⟩,
                 ⟨if mirror then 7 else 0, if ply.shortCastle then 7 else 0⟩,
                 Promotion.None⟩ ∧
    ply_to_lc0_move ply board mirror = ply_to_lc0_move ply board2 mirror := by
  constructor
  · rw [ply_to_lc0_move, if_pos h]
  · rw [ply_to_lc0_move, if_pos h, ply_to_lc0_move, if_pos h]

/-- Witness for C7's amended claim: a short-castle ply for the mirrored
side resolves to (7,4)→(7,7) on `kingOnFile2Board`, and resolves
identically on the entirely different `promoBoard`. -/
theorem castle_resolution_witness :
    ply_to_lc0_move castlePlyShort kingOnFile2Board true =
      Except.ok ⟨⟨7, 4⟩, ⟨7, 7⟩, Promotion.None⟩ ∧
    ply_to_lc0_move castlePlyShort kingOnFile2Board true =
      ply_to_lc0_move castlePlyShort promoBoard true :=
  ⟨(castle_resolution castlePlyShort kingOnFile2Board promoBoard true
      (Or.inl rfl)).1,
   (castle_resolution castlePlyShort kingOnFile2Board promoBoard true
      (Or.inl rfl)).2⟩

/-- C8, evaluated at the failing input: the promotion switch handles
'Q', 'R' and 'B' by setting the piece and not reaching the `default`
branch, but `case 'N'` has no `break`: it sets the Knight promotion and
then falls through into `default`, reaching `assert(false)`. On a board
where the a-pawn can promote, the book ply a8=N therefore resolves with
the Knight promotion set while triggering the assertion, contradicting
the claim that the assertion is never triggered for letter 'N'. -/
theorem promotion_switch_assert_at_knight :
    (applyPromotion 'Q' mvA = ({ mvA with promo := Promotion.Queen }, false)) ∧
    (applyPromotion 'R' mvA = ({ mvA with promo := Promotion.Rook }, false)) ∧
    (applyPromotion 'B' mvA = ({ mvA with promo := Promotion.Bishop }, false)) ∧
    (applyPromotion 'N' mvA = ({ mvA with promo := Promotion.Knight }, true)) ∧
    resolveFromList promoBoard promoPlyKnight false promoBoard.legalMoves =
      some (⟨⟨6, 0⟩, ⟨7, 0⟩, Promotion.Knight⟩, true) := by
  refine ⟨?_, ?_, ?_, ?_, ?_⟩ <;> decide

end Lczero
